import Mathlib

/-!
A shallow embedding of the graphql-to-openapi schema-translation engine
(src/lib/GraphQLToOpenAPIConverter.ts) and proofs about it.

The engine's external collaborators (GraphQL parsing, semantic validation,
schema construction, the generic AST visitor) are out of scope: the embedding
starts from an already-parsed query document and an already-built schema, and
models the single depth-first walk that `toOpenAPI` performs after `parse` and
`validate` have succeeded.

JavaScript values are modelled as follows:
* the JSON-Schema-like nodes the converter builds (plain JS objects with the
  fixed key set `type/items/properties/enum/anyOf/description`) become the
  inductive `Node`; a missing or `undefined` member is `none` / `JType.undef`;
* JS objects used as string-keyed dictionaries (the scalar cache, the fragment
  table, `properties`, `paths`) become insertion-ordered association lists;
  assignment to an existing key overwrites in place (`insertAssoc`);
* thrown JS exceptions become `Except.error`; the returned result object
  becomes `ConvOutcome`.
-/

namespace GtoO

/-- The value stored under a node's `type` key: `undefined`, a string, or a
(JS) array.  Arrays of arrays can arise (see `fieldDefToOpenApiField`'s
scalar-list branch, which wraps whatever is in the scalar cache). -/
inductive JType where
  | undef : JType
  | str (s : String) : JType
  | arr (elems : List JType) : JType
deriving Repr

/-- The JSON-Schema-like object the converter builds (the `openApiType`
literal of `fieldDefToOpenApiField` and friends): members
`type`, `items`, `properties`, `enum`, `anyOf`, `description`. -/
inductive Node where
  | mk (type : JType) (items : Option Node)
       (properties : Option (List (String × Node)))
       (enum : Option (List String))
       (anyOf : Option (List Node))
       (description : Option String) : Node
deriving Repr

def Node.type : Node → JType
  | .mk t _ _ _ _ _ => t

def Node.items : Node → Option Node
  | .mk _ i _ _ _ _ => i

def Node.properties : Node → Option (List (String × Node))
  | .mk _ _ p _ _ _ => p

def Node.enum : Node → Option (List String)
  | .mk _ _ _ e _ _ => e

def Node.anyOf : Node → Option (List Node)
  | .mk _ _ _ _ a _ => a

def Node.description : Node → Option String
  | .mk _ _ _ _ _ d => d

def Node.setType : Node → JType → Node
  | .mk _ i p e a d, t => .mk t i p e a d

def Node.setItems : Node → Option Node → Node
  | .mk t _ p e a d, i => .mk t i p e a d

def Node.setProperties : Node → Option (List (String × Node)) → Node
  | .mk t i _ e a d, p => .mk t i p e a d

def Node.setEnum : Node → Option (List String) → Node
  | .mk t i p _ a d, e => .mk t i p e a d

def Node.setAnyOf : Node → Option (List Node) → Node
  | .mk t i p e _ d, a => .mk t i p e a d

def Node.setDescription : Node → Option String → Node
  | .mk t i p e a _, d => .mk t i p e a d

/-- A node with every member `undefined` (the `openApiType` literal before any
member is filled in). -/
def emptyNode : Node := .mk .undef none none none none none

/-- Lookup in a JS object used as a string-keyed dictionary (`obj[k]`). -/
def lookupAssoc {α : Type} : List (String × α) → String → Option α
  | [], _ => none
  | (k', v) :: rest, k => if k' = k then some v else lookupAssoc rest k

/-- Assignment `obj[k] = v` on a JS object used as a dictionary: an existing
key is overwritten in place (its position is kept), a new key is appended
(JS string-key insertion order). -/
def insertAssoc {α : Type} : List (String × α) → String → α → List (String × α)
  | [], k, v => [(k, v)]
  | (k', v') :: rest, k, v =>
      if k' = k then (k, v) :: rest else (k', v') :: insertAssoc rest k v

/-- JS `x || undefined` on an optional string (`''` and absent both become
`undefined`). -/
def orUndef : Option String → Option String
  | some s => if s = "" then none else some s
  | none => none

/-- A GraphQL type reference as it appears in a schema: a named type possibly
wrapped in list / non-null modifiers.  (graphql-js stores resolved type
objects; the embedding resolves names against the schema at use sites.) -/
inductive TypeRef where
  | named (name : String) : TypeRef
  | list (ofType : TypeRef) : TypeRef
  | nonNull (ofType : TypeRef) : TypeRef
deriving DecidableEq, Repr

/-- `GraphQLType.toString()`: `T`, `[T]`, `T!`. -/
def refToString : TypeRef → String
  | .named n => n
  | .list t => "[" ++ refToString t ++ "]"
  | .nonNull t => refToString t ++ "!"

/-- `typeName.replace(/[!]$/, '')`: strip one trailing bang. -/
def dropBang (s : String) : String :=
  match s.data.getLast? with
  | some c => if c = '!' then String.mk s.data.dropLast else s
  | none => s

/-- A field of an output object type (`fieldDef`: its declared type and
description). -/
structure FieldDef where
  name : String
  type : TypeRef
  description : Option String
deriving Repr

/-- A field of an input object type. -/
structure InputFieldDef where
  name : String
  type : TypeRef
  description : Option String
deriving Repr

/-- A named GraphQL type definition (the closed set of kinds the converter
dispatches on via `instanceof`). -/
inductive TypeDef where
  | scalar (name : String) : TypeDef
  | object (name : String) (fields : List FieldDef) : TypeDef
  | union (name : String) (memberNames : List String) : TypeDef
  | enum (name : String) (values : List String) (description : Option String) : TypeDef
  | inputObject (name : String) (fields : List InputFieldDef)
      (description : Option String) : TypeDef
deriving Repr

def TypeDef.name : TypeDef → String
  | .scalar n => n
  | .object n _ => n
  | .union n _ => n
  | .enum n _ _ => n
  | .inputObject n _ _ => n

/-- A built schema: its named types and the root query type's name. -/
structure GSchema where
  types : List TypeDef
  queryType : String

/-- The five built-in scalars always present in a graphql-js schema. -/
def builtinScalarDef (n : String) : Option TypeDef :=
  if n = "Int" ∨ n = "Float" ∨ n = "String" ∨ n = "Boolean" ∨ n = "ID" then
    some (.scalar n)
  else none

def lookupType (s : GSchema) (n : String) : Option TypeDef :=
  match s.types.find? (fun d => d.name = n) with
  | some d => some d
  | none => builtinScalarDef n

/-- A resolved runtime GraphQL type object (what `instanceof` checks see):
non-null wrapper, list wrapper, or a named type definition. -/
inductive RType where
  | nonNull (ofType : RType) : RType
  | list (ofType : RType) : RType
  | defn (d : TypeDef) : RType
deriving Repr

/-- Resolve a type reference to the runtime type object it denotes.
`none` only for schemas that graphql-js `buildSchema` would have rejected
(a field referencing an unknown type). -/
def resolveRef (s : GSchema) : TypeRef → Option RType
  | .named n => (lookupType s n).map RType.defn
  | .list t => (resolveRef s t).map RType.list
  | .nonNull t => (resolveRef s t).map RType.nonNull

def isNonNullRef : TypeRef → Bool
  | .nonNull _ => true
  | _ => false

/-- Unwrap one layer of non-null (`if (type instanceof GraphQLNonNull) type =
type.ofType`). -/
def unwrapNonNull : TypeRef → TypeRef
  | .nonNull t => t
  | t => t

def rtypeUnwrapNonNull : RType → RType
  | .nonNull t => t
  | t => t

/-- Thrown failures of the converter.  `unknownScalar` is `UnknownScalarError`,
`depthLimit` the `depth limit exceeded` Error, `unexpectedInputType` the
`Unexpected InputType` Error; `jsTypeError` models the TypeError a JS engine
raises on a member access / assignment through `undefined` (its exact text is
engine-specific, so only a fixed descriptive message is kept). -/
inductive Err where
  | unknownScalar (message : String) : Err
  | depthLimit (message : String) : Err
  | unexpectedInputType (message : String) : Err
  | jsTypeError (message : String) : Err
deriving DecidableEq, Repr

/-- The scalar cache (`scalarConfig`): unknown scalar name → resolved node. -/
abbrev ScalarConfig := List (String × Node)

def nodeOfType (t : JType) : Node := .mk t none none none none none

def arrayOfItems (it : Node) : Node := .mk (.str "array") (some it) none none none none

/-- The hard-coded `typeMap` table (built-in scalars and their list forms). -/
def typeMapList : List (String × Node) :=
  [ ("ID", nodeOfType (.str "string")),
    ("[ID]", arrayOfItems (nodeOfType (.arr [.str "string", .str "null"]))),
    ("[ID!]", arrayOfItems (nodeOfType (.str "string"))),
    ("String", nodeOfType (.str "string")),
    ("[String!]", arrayOfItems (nodeOfType (.str "string"))),
    ("[String]", arrayOfItems (nodeOfType (.arr [.str "string", .str "null"]))),
    ("[Int]", arrayOfItems (nodeOfType (.arr [.str "integer", .str "null"]))),
    ("[Int!]", arrayOfItems (nodeOfType (.str "integer"))),
    ("[Float]", arrayOfItems (nodeOfType (.arr [.str "number", .str "null"]))),
    ("[Float!]", arrayOfItems (nodeOfType (.str "number"))),
    ("[Boolean]", arrayOfItems (nodeOfType (.arr [.str "boolean", .str "null"]))),
    ("[Boolean!]", arrayOfItems (nodeOfType (.str "boolean"))),
    ("Int", nodeOfType (.str "integer")),
    ("Float", nodeOfType (.str "number")),
    ("Boolean", nodeOfType (.str "boolean")) ]

def typeMap (k : String) : Option Node := lookupAssoc typeMapList k

/-- `getScalarType(typeName, scalarConfig, onUnknownScalar)`: cached node, or
the callback's node (memoized), or throw `UnknownScalarError`. -/
def getScalarType (typeName : String) (scalarConfig : ScalarConfig)
    (onUnknownScalar : String → Option Node) : Except Err (Node × ScalarConfig) :=
  match lookupAssoc scalarConfig typeName with
  | some node => .ok (node, scalarConfig)
  | none =>
    match onUnknownScalar typeName with
    | some r => .ok (r, insertAssoc scalarConfig typeName r)
    | none => .error (.unknownScalar ("Unknown scalar: " ++ typeName))

/-- `isOfTypeOrContains(typeDef, typeName)`: false on a falsy `typeDef`
(`undefined` or `''`), string equality on a string, `includes` on an array
(strict equality, so only string elements can match). -/
def isOfTypeOrContains (typeDef : JType) (typeName : String) : Bool :=
  match typeDef with
  | .undef => false
  | .str s => if s = "" then false else typeName == s
  | .arr es => es.any (fun e => match e with | .str s => s == typeName | _ => false)

/-- The default `onUnknownScalar` installed by the constructor: decline every
scalar (`() => null`). -/
def defaultOnUnknownScalar : String → Option Node := fun _ => none

/-- `fieldDefToOpenApiField(typeInfo, scalarConfig, onUnknownScalar)`.
The embedding receives the current field definition (what
`typeInfo.getFieldDef()` returns) and the schema used to resolve its type.

In the list-of-scalar branch the source assigns the cache's own node object to
`items` and then mutates its `type` in place
(`openApiType.items.type = [openApiType.items.type, 'null']`); since the node
and the cache entry are the same JS object, the embedding writes the mutated
node back into the cache. -/
def fieldDefToOpenApiField (s : GSchema) (fieldDef : FieldDef)
    (scalarConfig : ScalarConfig) (onUnknownScalar : String → Option Node) :
    Except Err (Node × ScalarConfig) :=
  let typeName := refToString fieldDef.type
  let description := orUndef fieldDef.description
  let nullable := !isNonNullRef fieldDef.type
  let type := unwrapNonNull fieldDef.type
  match typeMap (dropBang typeName) with
  | some entry =>
      let retVal := if nullable then entry.setType (.arr [entry.type, .str "null"]) else entry
      .ok (retVal.setDescription description, scalarConfig)
  | none =>
    match resolveRef s type with
    | some (.list inner) =>
      let itemType := rtypeUnwrapNonNull inner
      match itemType with
      | .defn (.object _ _) =>
          .ok (((emptyNode.setType (.str "array")).setItems
                  (some ((emptyNode.setType (.arr [.str "object", .str "null"])).setProperties
                    (some [])))).setDescription description, scalarConfig)
      | .defn (.union _ _) =>
          .ok (((emptyNode.setType (.str "array")).setItems
                  (some (emptyNode.setAnyOf (some [])))).setDescription description,
               scalarConfig)
      | .defn (.scalar nm) => do
          let (t, c1) ← getScalarType nm scalarConfig onUnknownScalar
          let t' := t.setType (.arr [t.type, .str "null"])
          .ok (((emptyNode.setType (.str "array")).setItems (some t')).setDescription
                 description,
               insertAssoc c1 nm t')
      | _ =>
          -- enum / nested-list / input-object items: none of the three
          -- `instanceof` branches fire and `items` stays undefined
          .ok ((emptyNode.setType (.str "array")).setDescription description, scalarConfig)
    | some (.defn (.object _ _)) =>
        .ok (((emptyNode.setType (.str "object")).setProperties (some [])).setDescription
               description, scalarConfig)
    | some (.defn (.enum _ values _)) =>
        .ok ((((emptyNode.setType
                  (if nullable then .arr [.str "string", .str "null"] else .str "string")).setDescription
                 description).setEnum (some values)), scalarConfig)
    | some (.defn (.union _ _)) =>
        .ok ((emptyNode.setAnyOf (some [])).setDescription description, scalarConfig)
    | some (.defn (.scalar nm)) => do
        let (t, c1) ← getScalarType nm scalarConfig onUnknownScalar
        .ok (t.setDescription description, c1)
    | some (.defn (.inputObject nm _ _)) => do
        -- the source casts blindly (`type as GraphQLScalarType`) and reads
        -- `.name`, so an input object type would reach getScalarType too
        let (t, c1) ← getScalarType nm scalarConfig onUnknownScalar
        .ok (t.setDescription description, c1)
    | some (.nonNull _) =>
        -- unreachable: graphql-js never produces a doubly-wrapped non-null
        .error (.jsTypeError "Cannot read properties of undefined")
    | none =>
        -- unreachable for schemas accepted by buildSchema
        .error (.jsTypeError "Cannot read properties of undefined")

/-- The `Object.entries(inputObjectType.getFields()).reduce(...)` loop of
`recurseInputType`'s input-object branch, parameterized by the recursive call
(already at `depth + 1`).  Each field's node gets the field's own description
assigned over whatever the recursion produced
(`properties[name].description = f.description`). -/
def inputFieldsLoop (recur : TypeRef → ScalarConfig → Except Err (Node × ScalarConfig)) :
    List InputFieldDef → List (String × Node) → ScalarConfig →
    Except Err (List (String × Node) × ScalarConfig)
  | [], acc, cache => .ok (acc, cache)
  | f :: rest, acc, cache => do
      let (node, c1) ← recur f.type cache
      inputFieldsLoop recur rest (insertAssoc acc f.name (node.setDescription f.description)) c1

/-- Worker for `recurseInputType`, structurally recursive on fuel.
`recurseInputType` runs it with fuel `51 - depth`, so fuel `0` is exactly the
source's `depth > 50` guard (every recursive call increments `depth` by one
while fuel drops by one, keeping `fuel = 51 - depth`). -/
def recurseInputTypeGo (s : GSchema) (onUnknownScalar : String → Option Node) :
    Nat → TypeRef → Nat → ScalarConfig → Except Err (Node × ScalarConfig)
  | 0, _, depth, _ =>
      .error (.depthLimit ("depth limit exceeded: " ++ toString depth))
  | fuel + 1, obj, depth, scalarConfig =>
    match obj with
    | .named n =>
      match lookupType s n with
      | some (.inputObject _ fields description) => do
          let (properties, c1) ←
            inputFieldsLoop
              (fun t cc => recurseInputTypeGo s onUnknownScalar fuel t (depth + 1) cc)
              fields [] scalarConfig
          .ok (((emptyNode.setType (.arr [.str "object", .str "null"])).setDescription
                  (orUndef description)).setProperties (some properties), c1)
      | some (.scalar nm) =>
          if nm = "Float" then
            .ok (nodeOfType (.arr [.str "number", .str "null"]), scalarConfig)
          else if nm = "Int" then
            .ok (nodeOfType (.arr [.str "integer", .str "null"]), scalarConfig)
          else if nm = "String" then
            .ok (nodeOfType (.arr [.str "string", .str "null"]), scalarConfig)
          else if nm = "Boolean" then
            .ok (nodeOfType (.arr [.str "boolean", .str "null"]), scalarConfig)
          else if nm = "ID" then
            .ok (nodeOfType (.arr [.str "string", .str "null"]), scalarConfig)
          else
            getScalarType nm scalarConfig onUnknownScalar
      | some (.enum _ values description) =>
          .ok (((emptyNode.setType (.arr [.str "string", .str "null"])).setDescription
                  (orUndef description)).setEnum (some values), scalarConfig)
      | _ =>
          -- output object/union types and unknown names fall past every
          -- `instanceof` check: `throw new Error('Unexpected InputType: ...')`
          .error (.unexpectedInputType ("Unexpected InputType: " ++ n))
    | .list ofType => do
        let (items, c1) ←
          recurseInputTypeGo s onUnknownScalar fuel ofType (depth + 1) scalarConfig
        .ok ((emptyNode.setType (.arr [.str "array", .str "null"])).setItems (some items), c1)
    | .nonNull ofType => do
        let (retVal, c1) ←
          recurseInputTypeGo s onUnknownScalar fuel ofType (depth + 1) scalarConfig
        let t :=
          match retVal.type with
          | .arr es =>
              let es' := es.filter (fun e => match e with | .str v => v != "null" | _ => true)
              match es' with
              | [e] => e
              | _ => .arr es'
          | other => other
        .ok (retVal.setType t, c1)

/-- `recurseInputType(obj, depth, scalarConfig, onUnknownScalar)`. -/
def recurseInputType (s : GSchema) (obj : TypeRef) (depth : Nat)
    (scalarConfig : ScalarConfig) (onUnknownScalar : String → Option Node) :
    Except Err (Node × ScalarConfig) :=
  recurseInputTypeGo s onUnknownScalar (51 - depth) obj depth scalarConfig

/-! ## The query AST

Only what the visitor dispatches on is modelled: operation definitions (name,
variable definitions, selection set), fragment definitions, and the three
selection kinds.  `SelectionList` is a specialized list so the walk is
structurally recursive. -/

mutual
inductive Selection where
  | field (fieldAlias : Option String) (name : String) (selectionSet : SelectionList) : Selection
  | fragmentSpread (name : String) : Selection
  | inlineFragment (typeCondition : Option String) (selectionSet : SelectionList) : Selection
inductive SelectionList where
  | nil : SelectionList
  | cons (head : Selection) (tail : SelectionList) : SelectionList
end

structure VariableDefinition where
  varName : String
  type : TypeRef

structure OperationDefinition where
  name : Option String
  /-- the 1-based line on which the operation itself starts in the query text
  (from the AST's location data; the converter never reads it) -/
  startLine : Nat
  variableDefinitions : List VariableDefinition
  selectionSet : SelectionList

structure FragmentDefinition where
  name : String
  typeCondition : String
  selectionSet : SelectionList

inductive Definition where
  | operation (op : OperationDefinition) : Definition
  | fragment (frag : FragmentDefinition) : Definition

structure Document where
  /-- `loc.source.locationOffset.line`: the location offset of the whole
  parsed source — `1` whenever the query was parsed from a plain string -/
  locationOffsetLine : Nat
  definitions : List Definition

/-! ## The assembled OpenAPI document -/

structure ParamSchema where
  type : JType
  items : Option Node
  properties : Option (List (String × Node))

/-- One entry of `operationDef.get.parameters`. -/
structure Param where
  name : String
  /-- the `in` key (always `'query'`) -/
  inLocation : String
  required : Bool
  schema : ParamSchema
  description : Option String

/-- `paths['/<name>'].get`, with the fixed parts of `responses` flattened:
`responseDescription` is `responses['200'].description` and `responseSchema`
is `responses['200'].content['application/json'].schema`. -/
structure PathEntry where
  parameters : List Param
  responseDescription : String
  responseSchema : Node

structure OpenApiDoc where
  openapi : String
  infoTitle : String
  infoLicenseName : String
  infoVersion : String
  serverUrls : List String
  paths : List (String × PathEntry)

/-- The `GraphQLToOpenAPIResult` variants `toOpenAPI` can produce once parsing
and validation have succeeded: `{ error }` with a `NoOperationNameError`
(holding its message), or `{ openApiSchema }`. -/
inductive ConvOutcome where
  | error (message : String) : ConvOutcome
  | openApiSchema (doc : OpenApiDoc) : ConvOutcome

structure ConvCtx where
  schema : GSchema
  onUnknownScalar : String → Option Node

/-- `getNamedType`: the name the type cursor descends to under a field. -/
def namedTypeName : TypeRef → String
  | .named n => n
  | .list t => namedTypeName t
  | .nonNull t => namedTypeName t

/-- `typeInfo.getFieldDef()` at a field named `fieldName` selected on the
composite type named `typeName`. -/
def lookupFieldDef (s : GSchema) (typeName fieldName : String) : Option FieldDef :=
  match lookupType s typeName with
  | some (.object _ fields) => fields.find? (fun f => f.name == fieldName)
  | _ => none

def noOperationNameMessage (line : Nat) : String :=
  "GraphQLToOpenAPIConverter requires a named operation on line " ++ toString line ++
    " of input query"

mutual
/-- The `Field` / `FragmentSpread` / `InlineFragment` visitor handlers as one
recursive walk.  `frame` is the node on top of `currentSelection` (the node
being filled in while this selection's siblings are visited); the returned
node is that frame after the selection's whole subtree was visited — the
explicit stack plus the leave-time pop (matched by source location) of the
original become the call stack here.

The walk reads the fragment table and never writes it (the table is written
only at `FragmentDefinition.leave`, see `processDefinitions`).  A selection
set under a field that pushed no frame can only occur in queries that
`validate` rejects, and is not descended into. -/
def processSelection (c : ConvCtx) (frags : List (String × Node)) (tn : String) :
    Selection → Node → ScalarConfig → Except Err (Node × ScalarConfig)
  | .field fieldAlias name childSels, frame, cache =>
    let fieldName := fieldAlias.getD name
    match lookupFieldDef c.schema tn name with
    | none =>
        -- typeInfo.getFieldDef() returned undefined; `fieldDef.type` throws
        .error (.jsTypeError "Cannot read properties of undefined")
    | some fieldDef => do
      let (openApiType, c1) ←
        fieldDefToOpenApiField c.schema fieldDef cache c.onUnknownScalar
      let pushes :=
        (isOfTypeOrContains openApiType.type "array" &&
          (match openApiType.items with
           | some it => isOfTypeOrContains it.type "object"
           | none => false)) ||
        (isOfTypeOrContains openApiType.type "array" &&
          (match openApiType.items with
           | some it => it.anyOf.isSome
           | none => false)) ||
        openApiType.anyOf.isSome ||
        isOfTypeOrContains openApiType.type "object"
      let (finalNode, c2) ←
        if pushes then
          processSelectionList c frags (namedTypeName fieldDef.type) childSels openApiType c1
        else
          pure (openApiType, c1)
      if isOfTypeOrContains frame.type "object" then
        match frame.properties with
        | some props =>
            .ok (frame.setProperties (some (insertAssoc props fieldName finalNode)), c2)
        | none => .error (.jsTypeError "Cannot set properties of undefined")
      else
        -- `parentObj.items.properties[name] = openApiType`
        match frame.items with
        | some it =>
          match it.properties with
          | some props =>
              .ok (frame.setItems
                     (some (it.setProperties (some (insertAssoc props fieldName finalNode)))),
                   c2)
          | none => .error (.jsTypeError "Cannot set properties of undefined")
        | none => .error (.jsTypeError "Cannot read properties of undefined")
  | .fragmentSpread name, frame, cache =>
    match lookupAssoc frags name with
    | none =>
        -- `fragments[name]` is undefined: each branch dereferences it
        .error (.jsTypeError "Cannot read properties of undefined")
    | some fragment =>
      if frame.anyOf.isSome then
        .ok (frame.setAnyOf fragment.anyOf, cache)
      else
        match frame.items with
        | some it => .ok (frame.setItems (some (it.setProperties fragment.properties)), cache)
        | none => .ok (frame.setProperties fragment.properties, cache)
  | .inlineFragment typeCondition childSels, frame, cache => do
    let openApiType := (emptyNode.setType (.str "object")).setProperties (some [])
    let childTn := typeCondition.getD tn
    let (finalNode, c1) ← processSelectionList c frags childTn childSels openApiType cache
    match frame.items with
    | some it =>
      match it.anyOf with
      | some l => .ok (frame.setItems (some (it.setAnyOf (some (l ++ [finalNode])))), c1)
      | none =>
        match frame.anyOf with
        | some l => .ok (frame.setAnyOf (some (l ++ [finalNode])), c1)
        | none => .error (.jsTypeError "Cannot read properties of undefined")
    | none =>
      match frame.anyOf with
      | some l => .ok (frame.setAnyOf (some (l ++ [finalNode])), c1)
      | none => .error (.jsTypeError "Cannot read properties of undefined")

def processSelectionList (c : ConvCtx) (frags : List (String × Node)) (tn : String) :
    SelectionList → Node → ScalarConfig → Except Err (Node × ScalarConfig)
  | .nil, frame, cache => .ok (frame, cache)
  | .cons sel rest, frame, cache => do
      let (frame1, c1) ← processSelection c frags tn sel frame cache
      processSelectionList c frags tn rest frame1 c1
end

/-- The `FragmentDefinition` enter handler (start a union or object node for
the fragment's type condition) plus the walk of its selection set; the leave
handler's write into the fragment table happens in `processDefinitions`. -/
def processFragmentDefinition (c : ConvCtx) (frags : List (String × Node))
    (frag : FragmentDefinition) (cache : ScalarConfig) : Except Err (Node × ScalarConfig) :=
  let openApiType :=
    match lookupType c.schema frag.typeCondition with
    | some (.union _ _) => emptyNode.setAnyOf (some [])
    | _ =>
        -- a type condition is a named type, never non-null, so the source's
        -- `fragmentType instanceof GraphQLNonNull` test is always false here
        (emptyNode.setType (.arr [.str "object", .str "null"])).setProperties (some [])
  processSelectionList c frags frag.typeCondition frag.selectionSet openApiType cache

/-- The `VariableDefinition` handler: map the declared input type and append a
GET parameter entry. -/
def processVariableDefinition (c : ConvCtx) (v : VariableDefinition)
    (cache : ScalarConfig) : Except Err (Param × ScalarConfig) := do
  let (t, c1) ← recurseInputType c.schema v.type 0 cache c.onUnknownScalar
  if isOfTypeOrContains t.type "object" || isOfTypeOrContains t.type "array" then
    .ok ({ name := v.varName, inLocation := "query",
           required := !isOfTypeOrContains t.type "null",
           schema := { type := t.type, items := t.items, properties := t.properties },
           description := orUndef t.description }, c1)
  else
    .ok ({ name := v.varName, inLocation := "query",
           required := !isOfTypeOrContains t.type "null",
           schema := { type := t.type, items := none, properties := none },
           description := orUndef t.description }, c1)

def processVariableDefinitions (c : ConvCtx) :
    List VariableDefinition → List Param → ScalarConfig →
    Except Err (List Param × ScalarConfig)
  | [], acc, cache => .ok (acc, cache)
  | v :: rest, acc, cache => do
      let (p, c1) ← processVariableDefinition c v cache
      processVariableDefinitions c rest (acc ++ [p]) c1

/-- The document walk: definitions in document order.  An unnamed operation
records the `NoOperationNameError` message and returns `BREAK` — the rest of
the definition list is not visited.  A fragment definition's finished node is
stored in the fragment table at its leave. -/
def processDefinitions (c : ConvCtx) (locationOffsetLine : Nat) :
    List Definition → List (String × PathEntry) → List (String × Node) → ScalarConfig →
    Except Err (Option String × List (String × PathEntry) × List (String × Node) × ScalarConfig)
  | [], paths, frags, cache => .ok (none, paths, frags, cache)
  | .operation op :: rest, paths, frags, cache =>
    match op.name with
    | none => .ok (some (noOperationNameMessage locationOffsetLine), paths, frags, cache)
    | some nm => do
      let (params, c1) ← processVariableDefinitions c op.variableDefinitions [] cache
      let rootNode := (emptyNode.setType (.str "object")).setProperties (some [])
      let (root1, c2) ←
        processSelectionList c frags c.schema.queryType op.selectionSet rootNode c1
      let entry : PathEntry :=
        { parameters := params, responseDescription := "response", responseSchema := root1 }
      processDefinitions c locationOffsetLine rest (insertAssoc paths ("/" ++ nm) entry)
        frags c2
  | .fragment frag :: rest, paths, frags, cache => do
      let (node, c1) ← processFragmentDefinition c frags frag cache
      processDefinitions c locationOffsetLine rest paths (insertAssoc frags frag.name node) c1

/-- `toOpenAPI(query)` from the point where `parse` and `validate` have
succeeded: walk the document once, then return `{ error }` if an unnamed
operation was hit, else `{ openApiSchema }` with the fixed skeleton.  Thrown
failures (`Except.error`) escape without being captured in the result.  The
final scalar cache is returned alongside, since it persists on the converter
instance across calls. -/
def toOpenAPI (s : GSchema) (onUnknownScalar : String → Option Node) (doc : Document)
    (scalarConfig : ScalarConfig) : Except Err (ConvOutcome × ScalarConfig) := do
  let c : ConvCtx := { schema := s, onUnknownScalar := onUnknownScalar }
  let (firstError, paths, _, cache1) ←
    processDefinitions c doc.locationOffsetLine doc.definitions [] [] scalarConfig
  match firstError with
  | some message => .ok (.error message, cache1)
  | none =>
      .ok (.openApiSchema
        { openapi := "3.1.0", infoTitle := "Not specified",
          infoLicenseName := "Not specified", infoVersion := "Not specified",
          serverUrls := ["/"], paths := paths }, cache1)

/-! ## Concrete inputs used by individual claims -/

/-- Scenario A schema: `type Query { hero: String }`. -/
def c1Schema : GSchema :=
  { types := [.object "Query" [{ name := "hero", type := .named "String", description := none }]],
    queryType := "Query" }

/-- Scenario A query: `query GetHero { hero }`. -/
def c1Doc : Document :=
  { locationOffsetLine := 1,
    definitions := [.operation
      { name := some "GetHero", startLine := 1, variableDefinitions := [],
        selectionSet := .cons (.field none "hero" .nil) .nil }] }

/-- The node `{ type: ['string','null'] }` produced for a nullable `String`
field. -/
def stringFieldNode : Node :=
  Node.mk (.arr [.str "string", .str "null"]) none none none none none

/-- A nullable object-typed field `obj: Obj`. -/
def c2Field : FieldDef := { name := "obj", type := .named "Obj", description := none }

def c2Schema : GSchema :=
  { types := [.object "Query" [c2Field],
              .object "Obj" [{ name := "a", type := .named "String", description := none }]],
    queryType := "Query" }

def c3Schema : GSchema := c1Schema

/-- An anonymous operation that starts on line 2 of the query text
(query `"\n{ hero }"`, parsed from a plain string so the source's location
offset is line 1). -/
def c3Op : OperationDefinition :=
  { name := none, startLine := 2, variableDefinitions := [],
    selectionSet := .cons (.field none "hero" .nil) .nil }

def c3Doc : Document := { locationOffsetLine := 1, definitions := [.operation c3Op] }

/-- Schema with `input Filter { q: String }`. -/
def c4Schema : GSchema :=
  { types := [.inputObject "Filter"
      [{ name := "q", type := .named "String", description := none }] none],
    queryType := "Query" }

def c5Ctx : ConvCtx :=
  { schema := { types := [], queryType := "Query" }, onUnknownScalar := defaultOnUnknownScalar }

/-- Scenario D variable: `$id: ID!`. -/
def c5Var : VariableDefinition := { varName := "id", type := .nonNull (.named "ID") }

/-- Scenario E schema: `type Query { when: DateTime }` with a custom scalar
`DateTime` and no resolver configured. -/
def c6Schema : GSchema :=
  { types := [.object "Query" [{ name := "when", type := .named "DateTime", description := none }],
              .scalar "DateTime"],
    queryType := "Query" }

def c6Doc : Document :=
  { locationOffsetLine := 1,
    definitions := [.operation
      { name := some "Q", startLine := 1, variableDefinitions := [],
        selectionSet := .cons (.field none "when" .nil) .nil }] }

def c7Schema : GSchema := { types := [.scalar "DateTime"], queryType := "Query" }

/-- A field whose type is a list of a non-null custom scalar:
`stamps: [DateTime!]`. -/
def c7Field : FieldDef :=
  { name := "stamps", type := .list (.nonNull (.named "DateTime")), description := none }

def c7Cache : ScalarConfig := [("DateTime", nodeOfType (.str "string"))]

/-- Selection list of plain leaf fields with the given names. -/
def c8Fields : List String → SelectionList
  | [] => .nil
  | nm :: rest => .cons (.field none nm .nil) (c8Fields rest)

def c8TypeFields (names : List String) : List FieldDef :=
  names.map (fun nm => { name := nm, type := .named "String", description := none })

/-- Schema `type Query { t: T }  type T { <names>: String }`. -/
def c8Schema (names : List String) : GSchema :=
  { types := [.object "Query" [{ name := "t", type := .named "T", description := none }],
              .object "T" (c8TypeFields names)],
    queryType := "Query" }

/-- `fragment F on T { <names> }  query Q { t { ...F } }` — the spread is the
sole selection of its set. -/
def c8DocSpread (names : List String) : Document :=
  { locationOffsetLine := 1,
    definitions := [
      .fragment { name := "F", typeCondition := "T", selectionSet := c8Fields names },
      .operation { name := some "Q", startLine := 2, variableDefinitions := [],
                   selectionSet := .cons (.field none "t"
                     (.cons (.fragmentSpread "F") .nil)) .nil }] }

/-- `query Q { t { <names> } }` — the fragment's selection set inlined in
place of the spread. -/
def c8DocInline (names : List String) : Document :=
  { locationOffsetLine := 1,
    definitions := [
      .operation { name := some "Q", startLine := 1, variableDefinitions := [],
                   selectionSet := .cons (.field none "t" (c8Fields names)) .nil }] }

/-- Iterated `properties[name] = <string node>` writes. -/
def c8Fold : List (String × Node) → List String → List (String × Node)
  | p, [] => p
  | p, nm :: rest => c8Fold (insertAssoc p nm stringFieldNode) rest

/-- The node started for an object-typed field (and for an operation root):
`{ type: 'object', properties: {} }`. -/
def c8ObjNode : Node := Node.mk (.str "object") none (some []) none none none

/-- The node started for a fragment definition on the object type `T`:
`{ type: ['object','null'], properties: {} }`. -/
def c8InitFragNode : Node :=
  Node.mk (.arr [.str "object", .str "null"]) none (some []) none none none

/-- The document both C8 runs are expected to produce. -/
def c8ExpectedDoc (names : List String) : OpenApiDoc :=
  { openapi := "3.1.0", infoTitle := "Not specified", infoLicenseName := "Not specified",
    infoVersion := "Not specified", serverUrls := ["/"],
    paths := [("/Q",
      { parameters := [], responseDescription := "response",
        responseSchema := Node.mk (.str "object") none
          (some [("t", Node.mk (.str "object") none (some (c8Fold [] names)) none none none)])
          none none none })] }

/-- The tail of `toOpenAPI` after the definition walk (named so the C8 proofs
can expose the walk's one opaque sub-computation and handle the rest by
definitional unfolding). -/
def c8Postlude
    (r : Option String × List (String × PathEntry) × List (String × Node) × ScalarConfig) :
    Except Err (ConvOutcome × ScalarConfig) :=
  match r.1 with
  | some message => .ok (.error message, r.2.2.2)
  | none =>
      .ok (.openApiSchema
        { openapi := "3.1.0", infoTitle := "Not specified",
          infoLicenseName := "Not specified", infoVersion := "Not specified",
          serverUrls := ["/"], paths := r.2.1 }, r.2.2.2)

/-- Continuation of the C8 spread run after the fragment definition's walk:
store the finished node under `F` and walk the operation. -/
def c8FragCont (names : List String) (r : Node × ScalarConfig) :
    Except Err (Option String × List (String × PathEntry) × List (String × Node) ×
      ScalarConfig) :=
  processDefinitions ⟨c8Schema names, defaultOnUnknownScalar⟩ 1
    [.operation { name := some "Q", startLine := 2, variableDefinitions := [],
                  selectionSet := .cons (.field none "t"
                    (.cons (.fragmentSpread "F") .nil)) .nil }]
    [] (insertAssoc [] "F" r.1) r.2

/-- Continuation of the C8 inline run after the `t` subtree's walk: attach the
finished node into the root frame. -/
def c8WriteCont (r : Node × ScalarConfig) : Except Err (Node × ScalarConfig) :=
  .ok (c8ObjNode.setProperties (some (insertAssoc [] "t" r.1)), r.2)

/-- Continuation after the `t` field: the rest of the operation's selection
list (empty). -/
def c8ListCont (names : List String) (r : Node × ScalarConfig) :
    Except Err (Node × ScalarConfig) :=
  processSelectionList ⟨c8Schema names, defaultOnUnknownScalar⟩ [] "Query" .nil r.1 r.2

/-- Continuation after the operation's selection set: register the path and
finish the walk. -/
def c8OpCont (names : List String) (r : Node × ScalarConfig) :
    Except Err (Option String × List (String × PathEntry) × List (String × Node) ×
      ScalarConfig) :=
  processDefinitions ⟨c8Schema names, defaultOnUnknownScalar⟩ 1 []
    (insertAssoc [] "/Q"
      { parameters := [], responseDescription := "response", responseSchema := r.1 })
    [] r.2

/-- Schema for the C8 counterexample: `type T { a: String  b: String }`. -/
def c8sSchema : GSchema :=
  { types := [.object "Query" [{ name := "t", type := .named "T", description := none }],
              .object "T" [{ name := "a", type := .named "String", description := none },
                           { name := "b", type := .named "String", description := none }]],
    queryType := "Query" }

/-- `fragment F on T { a }  query Q { t { b ...F } }`: the spread has a
sibling field written before it. -/
def c8sDocSpread : Document :=
  { locationOffsetLine := 1,
    definitions := [
      .fragment { name := "F", typeCondition := "T",
                  selectionSet := .cons (.field none "a" .nil) .nil },
      .operation { name := some "Q", startLine := 2, variableDefinitions := [],
                   selectionSet := .cons (.field none "t"
                     (.cons (.field none "b" .nil)
                       (.cons (.fragmentSpread "F") .nil))) .nil }] }

/-- `query Q { t { b a } }`: the same query with the fragment inlined. -/
def c8sDocInline : Document :=
  { locationOffsetLine := 1,
    definitions := [
      .operation { name := some "Q", startLine := 1, variableDefinitions := [],
                   selectionSet := .cons (.field none "t"
                     (.cons (.field none "b" .nil)
                       (.cons (.field none "a" .nil) .nil))) .nil }] }

/-- Extracts, from a `toOpenAPI` result, the property names of the object
node built for the field `t` of operation `Q` (empty list when any layer is
missing). -/
def c8Probe (r : Except Err (ConvOutcome × ScalarConfig)) : List String :=
  match r with
  | .ok (.openApiSchema d, _) =>
    match lookupAssoc d.paths "/Q" with
    | some pe =>
      match pe.responseSchema.properties with
      | some props =>
        match lookupAssoc props "t" with
        | some tNode =>
          match tNode.properties with
          | some ps => ps.map Prod.fst
          | none => []
        | none => []
      | none => []
    | none => []
  | _ => []

/-- Schema `type Query { d: [DateTime] }` with custom scalar `DateTime`. -/
def c9Schema : GSchema :=
  { types := [.object "Query" [{ name := "d", type := .list (.named "DateTime"),
                                 description := none }],
              .scalar "DateTime"],
    queryType := "Query" }

def c9Doc : Document :=
  { locationOffsetLine := 1,
    definitions := [.operation
      { name := some "Q", startLine := 1, variableDefinitions := [],
        selectionSet := .cons (.field none "d" .nil) .nil }] }

/-- A scalar cache priming `DateTime` to `{ type: 'string' }` (supplied as the
converter's `scalarConfig` constructor argument). -/
def c9Cache : ScalarConfig := [("DateTime", nodeOfType (.str "string"))]

/-- Extracts the first element of the `items.type` array of the node built for
field `d` of operation `Q`, when it is a string (`none` otherwise): separates
`['string','null']` from `[['string','null'],'null']`. -/
def c9Probe (r : Except Err (ConvOutcome × ScalarConfig)) : Option String :=
  match r with
  | .ok (.openApiSchema d, _) =>
    match lookupAssoc d.paths "/Q" with
    | some pe =>
      match pe.responseSchema.properties with
      | some props =>
        match lookupAssoc props "d" with
        | some dNode =>
          match dNode.items with
          | some it =>
            match it.type with
            | .arr (.str s :: _) => some s
            | _ => none
          | none => none
        | none => none
      | none => none
    | none => none
  | _ => none

/-- Schema `type Query { t: T }  type T { a: String }`. -/
def c10Schema : GSchema :=
  { types := [.object "Query" [{ name := "t", type := .named "T", description := none }],
              .object "T" [{ name := "a", type := .named "String", description := none }]],
    queryType := "Query" }

/-- `query Q { t { ...F } }  fragment F on T { a }` — the spread occurs
before the fragment's definition in document order (valid GraphQL). -/
def c10Doc : Document :=
  { locationOffsetLine := 1,
    definitions := [
      .operation { name := some "Q", startLine := 1, variableDefinitions := [],
                   selectionSet := .cons (.field none "t"
                     (.cons (.fragmentSpread "F") .nil)) .nil },
      .fragment { name := "F", typeCondition := "T",
                  selectionSet := .cons (.field none "a" .nil) .nil }] }

/-! ## Basic lemmas about the data model -/

theorem Node.type_setType (n : Node) (t : JType) : (n.setType t).type = t := by
  cases n; rfl

theorem Node.type_setItems (n : Node) (i : Option Node) : (n.setItems i).type = n.type := by
  cases n; rfl

theorem Node.type_setProperties (n : Node) (p : Option (List (String × Node))) :
    (n.setProperties p).type = n.type := by
  cases n; rfl

theorem Node.type_setEnum (n : Node) (e : Option (List String)) :
    (n.setEnum e).type = n.type := by
  cases n; rfl

theorem Node.type_setAnyOf (n : Node) (a : Option (List Node)) :
    (n.setAnyOf a).type = n.type := by
  cases n; rfl

theorem Node.type_setDescription (n : Node) (d : Option String) :
    (n.setDescription d).type = n.type := by
  cases n; rfl

theorem Node.anyOf_setType (n : Node) (t : JType) : (n.setType t).anyOf = n.anyOf := by
  cases n; rfl

theorem Node.anyOf_setAnyOf (n : Node) (a : Option (List Node)) : (n.setAnyOf a).anyOf = a := by
  cases n; rfl

theorem Node.anyOf_setDescription (n : Node) (d : Option String) :
    (n.setDescription d).anyOf = n.anyOf := by
  cases n; rfl

theorem Node.properties_setProperties (n : Node) (p : Option (List (String × Node))) :
    (n.setProperties p).properties = p := by
  cases n; rfl

theorem Node.setProperties_setProperties (n : Node) (p q : Option (List (String × Node))) :
    (n.setProperties p).setProperties q = n.setProperties q := by
  cases n; rfl

theorem Node.setProperties_own (n : Node) (p : Option (List (String × Node)))
    (h : n.properties = p) : n.setProperties p = n := by
  cases n; cases h; rfl

theorem lookupAssoc_mem {α : Type} (l : List (String × α)) (k : String) (v : α)
    (h : lookupAssoc l k = some v) : (k, v) ∈ l := by
  induction l with
  | nil => simp [lookupAssoc] at h
  | cons hd tl ih =>
    obtain ⟨k', v'⟩ := hd
    by_cases hk : k' = k
    · subst hk
      simp [lookupAssoc] at h
      subst h
      exact List.mem_cons_self _ _
    · simp [lookupAssoc, hk] at h
      exact List.mem_cons_of_mem _ (ih h)

theorem lookupAssoc_insertAssoc_of_ne {α : Type} (l : List (String × α)) (k n : String)
    (v : α) (h : k ≠ n) : lookupAssoc (insertAssoc l k v) n = lookupAssoc l n := by
  induction l with
  | nil => simp [insertAssoc, lookupAssoc, h]
  | cons hd tl ih =>
    obtain ⟨k', v'⟩ := hd
    by_cases hk : k' = k
    · subst hk
      simp [insertAssoc, lookupAssoc, h]
    · simp [insertAssoc, lookupAssoc, hk, ih]

/-- Every entry of the built-in `typeMap` has a `type` without the `'null'`
alternative (it is one of the bare strings
`string/integer/number/boolean/array`). -/
theorem typeMap_entry_null_free (k : String) (e : Node) (h : typeMap k = some e) :
    isOfTypeOrContains e.type "null" = false := by
  have hmem : (k, e) ∈ typeMapList := lookupAssoc_mem _ _ _ h
  fin_cases hmem <;> rfl

/-! ## C1 -/

/-- C1: for the schema `type Query { hero: String }` and the query
`query GetHero { hero }`, `toOpenAPI` returns a success result whose document
has `paths['/GetHero'].get.responses['200'].content['application/json'].schema`
equal to the object node with the single property
`hero : { type: ['string','null'] }`. -/
theorem c1_scenario_a :
    toOpenAPI c1Schema defaultOnUnknownScalar c1Doc [] =
      .ok (.openApiSchema
        { openapi := "3.1.0", infoTitle := "Not specified",
          infoLicenseName := "Not specified", infoVersion := "Not specified",
          serverUrls := ["/"],
          paths := [("/GetHero",
            { parameters := [], responseDescription := "response",
              responseSchema := Node.mk (.str "object") none
                (some [("hero", stringFieldNode)]) none none none })] }, []) := rfl

/-! ## C2 -/

/-- C2 counterexample: the nullable object field `obj: Obj` (not wrapped in
non-null) produces the node `{ type: 'object', properties: {} }` whose type
does **not** include the `'null'` alternative, refuting the claimed
nullability invariant for object fields. -/
theorem c2_counterexample :
    fieldDefToOpenApiField c2Schema c2Field [] defaultOnUnknownScalar =
      .ok (Node.mk (.str "object") none (some []) none none none, []) ∧
    isNonNullRef c2Field.type = false ∧
    isOfTypeOrContains (Node.mk (.str "object") none (some []) none none none).type "null"
      = false :=
  ⟨rfl, rfl, rfl⟩

/-! ## C6 -/

/-- C6: whenever a scalar is neither in the cache nor accepted by the
unknown-scalar callback (the default callback declines everything),
`getScalarType` throws an `UnknownScalarError` whose message names the scalar;
and concretely (Scenario E: custom scalar `DateTime`, no resolver configured,
used in the selection) the whole `toOpenAPI` call fails with that thrown
error, which is never captured in the result variant. -/
theorem c6_unknown_scalar :
    (∀ (n : String) (cache : ScalarConfig) (onU : String → Option Node),
        lookupAssoc cache n = none → onU n = none →
        getScalarType n cache onU = .error (.unknownScalar ("Unknown scalar: " ++ n))) ∧
    toOpenAPI c6Schema defaultOnUnknownScalar c6Doc [] =
      .error (.unknownScalar "Unknown scalar: DateTime") := by
  constructor
  · intro n cache onU h1 h2
    unfold getScalarType
    rw [h1, h2]
  · rfl

/-- Witness for C6 at the concrete scalar `DateTime` with an empty cache and
the default (declining) callback. -/
theorem c6_unknown_scalar_witness :
    getScalarType "DateTime" [] defaultOnUnknownScalar =
      .error (.unknownScalar "Unknown scalar: DateTime") :=
  c6_unknown_scalar.1 "DateTime" [] defaultOnUnknownScalar rfl rfl

/-! ## C7 -/

/-- C7 counterexample: for the field `stamps: [DateTime!]` — whose list item
type **is** wrapped in non-null — with the scalar cache resolving `DateTime`
to `{ type: 'string' }`, the produced `items` node still gains the `'null'`
alternative (`type: ['string','null']`), refuting the claimed
"nullable iff the item type was not non-null". -/
theorem c7_counterexample :
    c7Field.type = .list (.nonNull (.named "DateTime")) ∧
    fieldDefToOpenApiField c7Schema c7Field c7Cache defaultOnUnknownScalar =
      .ok (Node.mk (.str "array") (some stringFieldNode) none none none none,
           [("DateTime", stringFieldNode)]) ∧
    isOfTypeOrContains stringFieldNode.type "null" = true :=
  ⟨rfl, rfl, rfl⟩

/-- C7 (amended): when an output field's type is a list of a custom
(non-builtin) scalar, the items node is the Scalar-Resolver result with
`'null'` **unconditionally** added to its type — whether or not the item type
was wrapped in non-null (`inner` is arbitrary here, covering both) — and the
mutated node is also written back over the cache entry (the source mutates
the shared object in place). -/
theorem c7_scalar_list_items
    (s : GSchema) (fd : FieldDef) (cache c1 : ScalarConfig) (onU : String → Option Node)
    (inner : RType) (nm : String) (t : Node)
    (h1 : typeMap (dropBang (refToString fd.type)) = none)
    (h2 : resolveRef s (unwrapNonNull fd.type) = some (.list inner))
    (h3 : rtypeUnwrapNonNull inner = .defn (.scalar nm))
    (h4 : getScalarType nm cache onU = .ok (t, c1)) :
    fieldDefToOpenApiField s fd cache onU =
      .ok (((emptyNode.setType (.str "array")).setItems
              (some (t.setType (.arr [t.type, .str "null"])))).setDescription
             (orUndef fd.description),
           insertAssoc c1 nm (t.setType (.arr [t.type, .str "null"]))) := by
  simp only [fieldDefToOpenApiField, h1, h2, h3, h4, bind, Except.bind]

/-- Witness for C7 at the concrete field `stamps: [DateTime!]` (a non-null
item) with a primed cache. -/
theorem c7_scalar_list_items_witness :
    fieldDefToOpenApiField c7Schema c7Field c7Cache defaultOnUnknownScalar =
      .ok (((emptyNode.setType (.str "array")).setItems
              (some ((nodeOfType (.str "string")).setType
                (.arr [(nodeOfType (.str "string")).type, .str "null"])))).setDescription
             (orUndef c7Field.description),
           insertAssoc c7Cache "DateTime"
             ((nodeOfType (.str "string")).setType
               (.arr [(nodeOfType (.str "string")).type, .str "null"]))) :=
  c7_scalar_list_items c7Schema c7Field c7Cache c7Cache defaultOnUnknownScalar
    (.nonNull (.defn (.scalar "DateTime"))) "DateTime" (nodeOfType (.str "string"))
    rfl rfl rfl rfl

/-- C2 (amended): the produced node's own `type` carries the `'null'`
alternative iff the field is not non-null **only** for fields whose
(bang-stripped) type name hits the built-in `typeMap` and for enum fields;
an object field always yields `type: 'object'`, a union field yields no
`type` at all (an empty `anyOf`), and a list field that missed the `typeMap`
always yields `type: 'array'` — never `'null'`, whatever the nullability. -/
theorem c2_nullability :
    (∀ (s : GSchema) (fd : FieldDef) (cache : ScalarConfig) (onU : String → Option Node)
        (e node : Node) (cache' : ScalarConfig),
        typeMap (dropBang (refToString fd.type)) = some e →
        fieldDefToOpenApiField s fd cache onU = .ok (node, cache') →
        isOfTypeOrContains node.type "null" = !isNonNullRef fd.type) ∧
    (∀ (s : GSchema) (fd : FieldDef) (cache : ScalarConfig) (onU : String → Option Node)
        (nm : String) (vals : List String) (d : Option String) (node : Node)
        (cache' : ScalarConfig),
        typeMap (dropBang (refToString fd.type)) = none →
        resolveRef s (unwrapNonNull fd.type) = some (.defn (.enum nm vals d)) →
        fieldDefToOpenApiField s fd cache onU = .ok (node, cache') →
        isOfTypeOrContains node.type "null" = !isNonNullRef fd.type) ∧
    (∀ (s : GSchema) (fd : FieldDef) (cache : ScalarConfig) (onU : String → Option Node)
        (nm : String) (flds : List FieldDef) (node : Node) (cache' : ScalarConfig),
        typeMap (dropBang (refToString fd.type)) = none →
        resolveRef s (unwrapNonNull fd.type) = some (.defn (.object nm flds)) →
        fieldDefToOpenApiField s fd cache onU = .ok (node, cache') →
        node.type = .str "object") ∧
    (∀ (s : GSchema) (fd : FieldDef) (cache : ScalarConfig) (onU : String → Option Node)
        (nm : String) (ms : List String) (node : Node) (cache' : ScalarConfig),
        typeMap (dropBang (refToString fd.type)) = none →
        resolveRef s (unwrapNonNull fd.type) = some (.defn (.union nm ms)) →
        fieldDefToOpenApiField s fd cache onU = .ok (node, cache') →
        node.type = .undef ∧ node.anyOf = some []) ∧
    (∀ (s : GSchema) (fd : FieldDef) (cache : ScalarConfig) (onU : String → Option Node)
        (inner : RType) (node : Node) (cache' : ScalarConfig),
        typeMap (dropBang (refToString fd.type)) = none →
        resolveRef s (unwrapNonNull fd.type) = some (.list inner) →
        fieldDefToOpenApiField s fd cache onU = .ok (node, cache') →
        node.type = .str "array") := by
  refine ⟨?_, ?_, ?_, ?_, ?_⟩
  · intro s fd cache onU e node cache' h1 h2
    simp only [fieldDefToOpenApiField, h1, Except.ok.injEq, Prod.mk.injEq] at h2
    obtain ⟨hnode, -⟩ := h2
    rw [← hnode, Node.type_setDescription]
    cases hnn : isNonNullRef fd.type with
    | true => simp [typeMap_entry_null_free _ _ h1]
    | false => simp [Node.type_setType, isOfTypeOrContains]
  · intro s fd cache onU nm vals d node cache' h1 h2 h3
    simp only [fieldDefToOpenApiField, h1, h2, Except.ok.injEq, Prod.mk.injEq] at h3
    obtain ⟨hnode, -⟩ := h3
    rw [← hnode, Node.type_setEnum, Node.type_setDescription, Node.type_setType]
    cases hnn : isNonNullRef fd.type with
    | true => simp [isOfTypeOrContains]
    | false => simp [isOfTypeOrContains]
  · intro s fd cache onU nm flds node cache' h1 h2 h3
    simp only [fieldDefToOpenApiField, h1, h2, Except.ok.injEq, Prod.mk.injEq] at h3
    obtain ⟨hnode, -⟩ := h3
    rw [← hnode, Node.type_setDescription, Node.type_setProperties, Node.type_setType]
  · intro s fd cache onU nm ms node cache' h1 h2 h3
    simp only [fieldDefToOpenApiField, h1, h2, Except.ok.injEq, Prod.mk.injEq] at h3
    obtain ⟨hnode, -⟩ := h3
    constructor
    · rw [← hnode, Node.type_setDescription, Node.type_setAnyOf]
      rfl
    · rw [← hnode, Node.anyOf_setDescription, Node.anyOf_setAnyOf]
  · intro s fd cache onU inner node cache' h1 h2 h3
    simp only [fieldDefToOpenApiField, h1, h2] at h3
    cases hri : rtypeUnwrapNonNull inner with
    | nonNull r =>
      simp only [hri, Except.ok.injEq, Prod.mk.injEq] at h3
      obtain ⟨hnode, -⟩ := h3
      rw [← hnode, Node.type_setDescription, Node.type_setType]
    | list r =>
      simp only [hri, Except.ok.injEq, Prod.mk.injEq] at h3
      obtain ⟨hnode, -⟩ := h3
      rw [← hnode, Node.type_setDescription, Node.type_setType]
    | defn d =>
      cases d with
      | scalar snm =>
        simp only [hri] at h3
        cases hg : getScalarType snm cache onU with
        | error e =>
          rw [hg] at h3
          simp [bind, Except.bind] at h3
        | ok tc =>
          obtain ⟨t, c1⟩ := tc
          rw [hg] at h3
          simp only [bind, Except.bind, Except.ok.injEq, Prod.mk.injEq] at h3
          obtain ⟨hnode, -⟩ := h3
          rw [← hnode, Node.type_setDescription, Node.type_setItems, Node.type_setType]
      | object onm oflds =>
        simp only [hri, Except.ok.injEq, Prod.mk.injEq] at h3
        obtain ⟨hnode, -⟩ := h3
        rw [← hnode, Node.type_setDescription, Node.type_setItems, Node.type_setType]
      | union unm ums =>
        simp only [hri, Except.ok.injEq, Prod.mk.injEq] at h3
        obtain ⟨hnode, -⟩ := h3
        rw [← hnode, Node.type_setDescription, Node.type_setItems, Node.type_setType]
      | enum enm evals edd =>
        simp only [hri, Except.ok.injEq, Prod.mk.injEq] at h3
        obtain ⟨hnode, -⟩ := h3
        rw [← hnode, Node.type_setDescription, Node.type_setType]
      | inputObject inm iflds idd =>
        simp only [hri, Except.ok.injEq, Prod.mk.injEq] at h3
        obtain ⟨hnode, -⟩ := h3
        rw [← hnode, Node.type_setDescription, Node.type_setType]

/-- Witness for C2 (amended), applying the typeMap part at the nullable
builtin field `hero: String` and the object part at the nullable object field
`obj: Obj`. -/
theorem c2_nullability_witness :
    isOfTypeOrContains stringFieldNode.type "null"
      = !isNonNullRef (TypeRef.named "String") ∧
    (Node.mk (.str "object") none (some []) none none none).type = .str "object" :=
  ⟨c2_nullability.1 c1Schema { name := "hero", type := .named "String", description := none }
      [] defaultOnUnknownScalar (nodeOfType (.str "string")) stringFieldNode [] rfl rfl,
   c2_nullability.2.2.1 c2Schema c2Field [] defaultOnUnknownScalar "Obj"
      [{ name := "a", type := .named "String", description := none }]
      (Node.mk (.str "object") none (some []) none none none) [] rfl rfl rfl⟩

/-! ## C9 -/

/-- C9: with a fixed schema, a fixed scalar cache object (priming `DateTime`
to `{ type: 'string' }`) and the fixed default resolver, running `toOpenAPI`
twice on the query `query Q { d }` does **not** yield structurally identical
results: the list-of-custom-scalar branch mutates the cached node in place,
so the first call returns `items: { type: ['string','null'] }` while the
second returns `items: { type: [['string','null'],'null'] }`. -/
theorem c9_nondeterminism :
    ∃ (out1 : ConvOutcome) (cache1 : ScalarConfig) (out2 : ConvOutcome)
      (cache2 : ScalarConfig),
      toOpenAPI c9Schema defaultOnUnknownScalar c9Doc c9Cache = .ok (out1, cache1) ∧
      toOpenAPI c9Schema defaultOnUnknownScalar c9Doc cache1 = .ok (out2, cache2) ∧
      out1 ≠ out2 := by
  refine ⟨_, _, _, _, rfl, rfl, ?_⟩
  intro h
  exact absurd (congrArg (fun o => c9Probe (Except.ok (o, []))) h) (by decide)

/-! ## C3 -/

set_option maxRecDepth 4096 in
/-- C3 counterexample: for a query whose single anonymous operation starts on
line 2 (source parsed from a plain string, so the source's location offset is
line 1), the returned error message reports the location-offset line `1`: the
operation's own 1-based line (`2`) does not occur in the message at all. -/
theorem c3_counterexample :
    toOpenAPI c3Schema defaultOnUnknownScalar c3Doc [] =
      .ok (.error (noOperationNameMessage 1), []) ∧
    c3Op.startLine = 2 ∧
    ¬ "2".toList <:+: (noOperationNameMessage 1).toList :=
  ⟨rfl, rfl, by decide⟩

/-- Walking `defs1 ++ defs2` is walking `defs1` and continuing with `defs2`
from the reached state, provided `defs1` finished without `BREAK`ing. -/
theorem processDefinitions_append (c : ConvCtx) (locLine : Nat)
    (defs1 defs2 : List Definition) :
    ∀ (paths : List (String × PathEntry)) (frags : List (String × Node))
      (cache : ScalarConfig) (p1 : List (String × PathEntry))
      (f1 : List (String × Node)) (c1 : ScalarConfig),
      processDefinitions c locLine defs1 paths frags cache = .ok (none, p1, f1, c1) →
      processDefinitions c locLine (defs1 ++ defs2) paths frags cache =
        processDefinitions c locLine defs2 p1 f1 c1 := by
  induction defs1 with
  | nil =>
    intro paths frags cache p1 f1 c1 h
    simp only [processDefinitions, Except.ok.injEq, Prod.mk.injEq] at h
    obtain ⟨-, hp, hf, hc⟩ := h
    subst hp; subst hf; subst hc
    simp
  | cons d rest ih =>
    intro paths frags cache p1 f1 c1 h
    cases d with
    | operation op =>
      cases hn : op.name with
      | none =>
        simp only [processDefinitions, hn, Except.ok.injEq, Prod.mk.injEq] at h
        exact absurd h.1 (by simp)
      | some nm =>
        rw [List.cons_append]
        simp only [processDefinitions, hn] at h ⊢
        cases hv : processVariableDefinitions c op.variableDefinitions [] cache with
        | error e =>
          simp only [hv, bind, Except.bind] at h
          exact absurd h (by simp)
        | ok pc =>
          obtain ⟨params, cc1⟩ := pc
          simp only [hv, bind, Except.bind] at h ⊢
          cases hsel : processSelectionList c frags c.schema.queryType op.selectionSet
              ((emptyNode.setType (.str "object")).setProperties (some [])) cc1 with
          | error e =>
            simp only [hsel, bind, Except.bind] at h
            exact absurd h (by simp)
          | ok rc =>
            obtain ⟨root1, cc2⟩ := rc
            simp only [hsel, bind, Except.bind] at h ⊢
            exact ih _ _ _ _ _ _ h
    | fragment frag =>
      rw [List.cons_append]
      simp only [processDefinitions] at h ⊢
      cases hfr : processFragmentDefinition c frags frag cache with
      | error e =>
        simp only [hfr, bind, Except.bind] at h
        exact absurd h (by simp)
      | ok ncp =>
        obtain ⟨fnode, cc1⟩ := ncp
        simp only [hfr, bind, Except.bind] at h ⊢
        exact ih _ _ _ _ _ _ h

/-- C3 (amended): whenever the document contains an operation without a name
(and the walk reaches it without a thrown failure), `toOpenAPI` returns the
`{ error }` result variant — not `{ openApiSchema }` — carrying the
`NoOperationNameError` message built from the **source's location-offset
line** (`node.loc.source.locationOffset.line`, `1` for a query parsed from a
plain string), and the walk `BREAK`s there: the remaining definitions
`defs2` are arbitrary and never influence the result. -/
theorem c3_no_operation_name
    (s : GSchema) (onU : String → Option Node) (doc : Document) (cache0 : ScalarConfig)
    (defs1 defs2 : List Definition) (op : OperationDefinition)
    (p1 : List (String × PathEntry)) (f1 : List (String × Node)) (c1 : ScalarConfig)
    (hdefs : doc.definitions = defs1 ++ Definition.operation op :: defs2)
    (hname : op.name = none)
    (hpre : processDefinitions ⟨s, onU⟩ doc.locationOffsetLine defs1 [] [] cache0 =
      .ok (none, p1, f1, c1)) :
    toOpenAPI s onU doc cache0 =
      .ok (.error (noOperationNameMessage doc.locationOffsetLine), c1) := by
  simp only [toOpenAPI]
  rw [hdefs, processDefinitions_append _ _ _ _ _ _ _ _ _ _ hpre]
  simp [processDefinitions, hname, bind, Except.bind]

/-- Witness for C3 (amended) at the concrete anonymous-operation query. -/
theorem c3_no_operation_name_witness :
    toOpenAPI c3Schema defaultOnUnknownScalar c3Doc [] =
      .ok (.error (noOperationNameMessage c3Doc.locationOffsetLine), []) :=
  c3_no_operation_name c3Schema defaultOnUnknownScalar c3Doc [] [] [] c3Op [] [] []
    rfl rfl rfl

/-! ## C10 -/

/-- The walk never adds a fragment-table key other than through a fragment
definition's completion: if `nm` is absent and no fragment definition in
`defs` is named `nm`, it is still absent afterwards. -/
theorem processDefinitions_no_new_fragment (c : ConvCtx) (locLine : Nat)
    (defs : List Definition) (nm : String) :
    ∀ (paths : List (String × PathEntry)) (frags : List (String × Node))
      (cache : ScalarConfig) (e : Option String) (p1 : List (String × PathEntry))
      (f1 : List (String × Node)) (c1 : ScalarConfig),
      processDefinitions c locLine defs paths frags cache = .ok (e, p1, f1, c1) →
      lookupAssoc frags nm = none →
      (∀ fd : FragmentDefinition, Definition.fragment fd ∈ defs → fd.name ≠ nm) →
      lookupAssoc f1 nm = none := by
  induction defs with
  | nil =>
    intro paths frags cache e p1 f1 c1 h hnone hmem
    simp only [processDefinitions, Except.ok.injEq, Prod.mk.injEq] at h
    obtain ⟨-, -, hf, -⟩ := h
    rw [← hf]
    exact hnone
  | cons d rest ih =>
    intro paths frags cache e p1 f1 c1 h hnone hmem
    cases d with
    | operation op =>
      cases hn : op.name with
      | none =>
        simp only [processDefinitions, hn, Except.ok.injEq, Prod.mk.injEq] at h
        obtain ⟨-, -, hf, -⟩ := h
        rw [← hf]
        exact hnone
      | some onm =>
        simp only [processDefinitions, hn] at h
        cases hv : processVariableDefinitions c op.variableDefinitions [] cache with
        | error ee =>
          simp only [hv, bind, Except.bind] at h
          exact absurd h (by simp)
        | ok pc =>
          obtain ⟨params, cc1⟩ := pc
          simp only [hv, bind, Except.bind] at h
          cases hsel : processSelectionList c frags c.schema.queryType op.selectionSet
              ((emptyNode.setType (.str "object")).setProperties (some [])) cc1 with
          | error ee =>
            simp only [hsel, bind, Except.bind] at h
            exact absurd h (by simp)
          | ok rc =>
            obtain ⟨root1, cc2⟩ := rc
            simp only [hsel, bind, Except.bind] at h
            exact ih _ _ _ _ _ _ _ h hnone
              (fun fd hm => hmem fd (List.mem_cons_of_mem _ hm))
    | fragment fdf =>
      simp only [processDefinitions] at h
      cases hfr : processFragmentDefinition c frags fdf cache with
      | error ee =>
        simp only [hfr, bind, Except.bind] at h
        exact absurd h (by simp)
      | ok ncp =>
        obtain ⟨fnode, cc1⟩ := ncp
        simp only [hfr, bind, Except.bind] at h
        have hne : fdf.name ≠ nm := hmem fdf (List.mem_cons_self _ _)
        have hnone' : lookupAssoc (insertAssoc frags fdf.name fnode) nm = none := by
          rw [lookupAssoc_insertAssoc_of_ne _ _ _ _ hne]
          exact hnone
        exact ih _ _ _ _ _ _ _ h hnone'
          (fun fd hm => hmem fd (List.mem_cons_of_mem _ hm))

/-- C10: the fragment table is written only when a fragment definition's walk
completes, so (i) a fragment spread whose name is absent from the table makes
the walk throw a TypeError (every branch of the spread handler dereferences
the absent entry), (ii) walking definitions that contain no fragment
definition named `nm` never makes `nm` present, and (iii) concretely, for
the valid query `query Q { t { ...F } } fragment F on T { a }` — spread
textually before its fragment's definition — `toOpenAPI` throws instead of
returning any result variant. -/
theorem c10_fragment_order :
    (∀ (c : ConvCtx) (frags : List (String × Node)) (tn nm : String) (frame : Node)
        (cache : ScalarConfig),
        lookupAssoc frags nm = none →
        processSelection c frags tn (.fragmentSpread nm) frame cache =
          .error (.jsTypeError "Cannot read properties of undefined")) ∧
    (∀ (c : ConvCtx) (locLine : Nat) (defs : List Definition) (nm : String)
        (paths : List (String × PathEntry)) (frags : List (String × Node))
        (cache : ScalarConfig) (e : Option String) (p1 : List (String × PathEntry))
        (f1 : List (String × Node)) (c1 : ScalarConfig),
        processDefinitions c locLine defs paths frags cache = .ok (e, p1, f1, c1) →
        lookupAssoc frags nm = none →
        (∀ fd : FragmentDefinition, Definition.fragment fd ∈ defs → fd.name ≠ nm) →
        lookupAssoc f1 nm = none) ∧
    toOpenAPI c10Schema defaultOnUnknownScalar c10Doc [] =
      .error (.jsTypeError "Cannot read properties of undefined") := by
  refine ⟨?_, ?_, rfl⟩
  · intro c frags tn nm frame cache h
    simp only [processSelection, h]
  · intro c locLine defs nm paths frags cache e p1 f1 c1 h hnone hmem
    exact processDefinitions_no_new_fragment c locLine defs nm paths frags cache e p1 f1 c1
      h hnone hmem

/-- Witness for C10: the spread of the absent fragment `F` throws, and an
empty walk adds no table entry. -/
theorem c10_fragment_order_witness :
    processSelection ⟨c10Schema, defaultOnUnknownScalar⟩ [] "T" (.fragmentSpread "F")
        emptyNode [] =
      .error (.jsTypeError "Cannot read properties of undefined") ∧
    lookupAssoc ([] : List (String × Node)) "F" = none :=
  ⟨c10_fragment_order.1 ⟨c10Schema, defaultOnUnknownScalar⟩ [] "T" "F" emptyNode [] rfl,
   c10_fragment_order.2.1 ⟨c10Schema, defaultOnUnknownScalar⟩ 1 [] "F" [] [] [] none [] [] []
     rfl rfl (fun fd hm => by cases hm)⟩

/-! ## C4 -/

/-- A successful `recurseInputType` on (a reference to) an input object type
yields `type: ['object','null']`. -/
theorem recurseInputType_inputObject_type
    (s : GSchema) (n n' : String) (fields : List InputFieldDef) (d : Option String)
    (depth : Nat) (cache : ScalarConfig) (onU : String → Option Node) (t : Node)
    (c' : ScalarConfig)
    (hl : lookupType s n = some (.inputObject n' fields d))
    (h : recurseInputType s (.named n) depth cache onU = .ok (t, c')) :
    t.type = .arr [.str "object", .str "null"] := by
  unfold recurseInputType at h
  cases hf : 51 - depth with
  | zero =>
    rw [hf] at h
    simp [recurseInputTypeGo] at h
  | succ f =>
    rw [hf] at h
    simp only [recurseInputTypeGo, hl] at h
    cases hloop : inputFieldsLoop
        (fun tr cc => recurseInputTypeGo s onU f tr (depth + 1) cc) fields [] cache with
    | error e =>
      simp only [hloop, bind, Except.bind] at h
      exact absurd h (by simp)
    | ok pc =>
      obtain ⟨props, cc1⟩ := pc
      simp only [hloop, bind, Except.bind, Except.ok.injEq, Prod.mk.injEq] at h
      obtain ⟨ht, -⟩ := h
      rw [← ht, Node.type_setProperties, Node.type_setDescription, Node.type_setType]

/-- The non-null wrapper around an input object: the recursion's
`['object','null']` has `'null'` filtered away and the remaining singleton
collapses to the bare `'object'`. -/
theorem recurseInputType_nonNull_inputObject_type
    (s : GSchema) (n n' : String) (fields : List InputFieldDef) (d : Option String)
    (depth : Nat) (cache : ScalarConfig) (onU : String → Option Node) (t : Node)
    (c' : ScalarConfig)
    (hl : lookupType s n = some (.inputObject n' fields d))
    (h : recurseInputType s (.nonNull (.named n)) depth cache onU = .ok (t, c')) :
    t.type = .str "object" := by
  unfold recurseInputType at h
  cases hf : 51 - depth with
  | zero =>
    rw [hf] at h
    simp [recurseInputTypeGo] at h
  | succ f =>
    rw [hf] at h
    simp only [recurseInputTypeGo] at h
    cases hi : recurseInputTypeGo s onU f (.named n) (depth + 1) cache with
    | error e =>
      simp only [hi, bind, Except.bind] at h
      exact absurd h (by simp)
    | ok rc =>
      obtain ⟨retVal, cc1⟩ := rc
      have hwrap : recurseInputType s (.named n) (depth + 1) cache onU = .ok (retVal, cc1) := by
        unfold recurseInputType
        have hfe : 51 - (depth + 1) = f := by omega
        rw [hfe]
        exact hi
      have htype := recurseInputType_inputObject_type s n n' fields d (depth + 1) cache onU
        retVal cc1 hl hwrap
      simp only [hi, bind, Except.bind, Except.ok.injEq, Prod.mk.injEq] at h
      obtain ⟨ht, -⟩ := h
      rw [← ht, Node.type_setType, htype]
      rfl

/-- C4: a variable whose declared input type is a non-null input object gets
a parameter schema whose top-level `type` is exactly `'object'` (the
non-null wrapper removes `'null'` from the recursive `['object','null']` and
collapses the remaining singleton to the bare value); a nullable input object
variable gets `['object','null']`.  Stated both at the `recurseInputType`
level and at the appended parameter's schema. -/
theorem c4_input_object :
    (∀ (s : GSchema) (n n' : String) (fields : List InputFieldDef) (d : Option String)
        (depth : Nat) (cache : ScalarConfig) (onU : String → Option Node) (t : Node)
        (c' : ScalarConfig),
        lookupType s n = some (.inputObject n' fields d) →
        recurseInputType s (.named n) depth cache onU = .ok (t, c') →
        t.type = .arr [.str "object", .str "null"]) ∧
    (∀ (s : GSchema) (n n' : String) (fields : List InputFieldDef) (d : Option String)
        (depth : Nat) (cache : ScalarConfig) (onU : String → Option Node) (t : Node)
        (c' : ScalarConfig),
        lookupType s n = some (.inputObject n' fields d) →
        recurseInputType s (.nonNull (.named n)) depth cache onU = .ok (t, c') →
        t.type = .str "object") ∧
    (∀ (c : ConvCtx) (v : VariableDefinition) (n n' : String) (fields : List InputFieldDef)
        (d : Option String) (cache : ScalarConfig) (p : Param) (c' : ScalarConfig),
        v.type = .nonNull (.named n) →
        lookupType c.schema n = some (.inputObject n' fields d) →
        processVariableDefinition c v cache = .ok (p, c') →
        p.schema.type = .str "object") ∧
    (∀ (c : ConvCtx) (v : VariableDefinition) (n n' : String) (fields : List InputFieldDef)
        (d : Option String) (cache : ScalarConfig) (p : Param) (c' : ScalarConfig),
        v.type = .named n →
        lookupType c.schema n = some (.inputObject n' fields d) →
        processVariableDefinition c v cache = .ok (p, c') →
        p.schema.type = .arr [.str "object", .str "null"]) := by
  refine ⟨recurseInputType_inputObject_type, recurseInputType_nonNull_inputObject_type,
    ?_, ?_⟩
  · intro c v n n' fields d cache p c' hv hl h
    unfold processVariableDefinition at h
    rw [hv] at h
    cases hr : recurseInputType c.schema (.nonNull (.named n)) 0 cache c.onUnknownScalar with
    | error e =>
      simp only [hr, bind, Except.bind] at h
      exact absurd h (by simp)
    | ok tc =>
      obtain ⟨t, cc1⟩ := tc
      have htype := recurseInputType_nonNull_inputObject_type c.schema n n' fields d 0 cache
        c.onUnknownScalar t cc1 hl hr
      simp only [hr, bind, Except.bind] at h
      rw [htype] at h
      simp only [isOfTypeOrContains] at h
      simp at h
      obtain ⟨hp, -⟩ := h
      rw [← hp]
  · intro c v n n' fields d cache p c' hv hl h
    unfold processVariableDefinition at h
    rw [hv] at h
    cases hr : recurseInputType c.schema (.named n) 0 cache c.onUnknownScalar with
    | error e =>
      simp only [hr, bind, Except.bind] at h
      exact absurd h (by simp)
    | ok tc =>
      obtain ⟨t, cc1⟩ := tc
      have htype := recurseInputType_inputObject_type c.schema n n' fields d 0 cache
        c.onUnknownScalar t cc1 hl hr
      simp only [hr, bind, Except.bind] at h
      rw [htype] at h
      simp only [isOfTypeOrContains] at h
      simp at h
      obtain ⟨hp, -⟩ := h
      rw [← hp]

/-- Witness for C4: the variables `$f: Filter!` and `$g: Filter` against
`input Filter { q: String }`. -/
theorem c4_input_object_witness :
    (Param.mk "f" "query" true
        ⟨.str "object", none, some [("q", nodeOfType (.arr [.str "string", .str "null"]))]⟩
        none).schema.type = .str "object" ∧
    (Param.mk "g" "query" false
        ⟨.arr [.str "object", .str "null"], none,
          some [("q", nodeOfType (.arr [.str "string", .str "null"]))]⟩
        none).schema.type = .arr [.str "object", .str "null"] :=
  ⟨c4_input_object.2.2.1 ⟨c4Schema, defaultOnUnknownScalar⟩
      ⟨"f", .nonNull (.named "Filter")⟩ "Filter" "Filter"
      [{ name := "q", type := .named "String", description := none }] none []
      (Param.mk "f" "query" true
        ⟨.str "object", none, some [("q", nodeOfType (.arr [.str "string", .str "null"]))]⟩
        none) [] rfl rfl rfl,
   c4_input_object.2.2.2 ⟨c4Schema, defaultOnUnknownScalar⟩
      ⟨"g", .named "Filter"⟩ "Filter" "Filter"
      [{ name := "q", type := .named "String", description := none }] none []
      (Param.mk "g" "query" false
        ⟨.arr [.str "object", .str "null"], none,
          some [("q", nodeOfType (.arr [.str "string", .str "null"]))]⟩
        none) [] rfl rfl rfl⟩

/-! ## C5 -/

/-- C5: the appended GET parameter entry has `required: true` exactly when
the variable's mapped input type does not admit `'null'`
(`required: !isOfTypeOrContains(t.type, 'null')`); and concretely
(Scenario D) the variable `$id: ID!` yields the entry
`{ name: 'id', in: 'query', required: true, schema: { type: 'string' } }`. -/
theorem c5_required_param :
    (∀ (c : ConvCtx) (v : VariableDefinition) (cache : ScalarConfig) (t : Node)
        (c1 : ScalarConfig) (p : Param) (c2 : ScalarConfig),
        recurseInputType c.schema v.type 0 cache c.onUnknownScalar = .ok (t, c1) →
        processVariableDefinition c v cache = .ok (p, c2) →
        p.required = !isOfTypeOrContains t.type "null") ∧
    processVariableDefinition c5Ctx c5Var [] =
      .ok ({ name := "id", inLocation := "query", required := true,
             schema := { type := .str "string", items := none, properties := none },
             description := none }, []) := by
  constructor
  · intro c v cache t c1 p c2 h1 h2
    unfold processVariableDefinition at h2
    simp only [h1, bind, Except.bind] at h2
    by_cases hcond :
        (isOfTypeOrContains t.type "object" || isOfTypeOrContains t.type "array") = true
    · rw [if_pos hcond] at h2
      simp only [Except.ok.injEq, Prod.mk.injEq] at h2
      obtain ⟨hp, -⟩ := h2
      rw [← hp]
    · rw [if_neg hcond] at h2
      simp only [Except.ok.injEq, Prod.mk.injEq] at h2
      obtain ⟨hp, -⟩ := h2
      rw [← hp]
  · rfl

/-- Witness for C5 at `$id: ID!`. -/
theorem c5_required_param_witness :
    (Param.mk "id" "query" true ⟨.str "string", none, none⟩ none).required
      = !isOfTypeOrContains (nodeOfType (.str "string")).type "null" :=
  c5_required_param.1 c5Ctx c5Var [] (nodeOfType (.str "string")) []
    (Param.mk "id" "query" true ⟨.str "string", none, none⟩ none) [] rfl rfl

/-! ## C8 -/

theorem c8_fields_find (names0 : List String) (nm : String) (h : nm ∈ names0) :
    (c8TypeFields names0).find? (fun f => f.name == nm) =
      some { name := nm, type := .named "String", description := none } := by
  induction names0 with
  | nil => cases h
  | cons x rest ih =>
    simp only [c8TypeFields, List.map_cons]
    by_cases hx : x = nm
    · subst hx
      rw [List.find?_cons_of_pos]
      simp
    · rw [List.find?_cons_of_neg]
      · have hmem : nm ∈ rest := by
          rcases List.mem_cons.mp h with he | he
          · exact absurd he.symm hx
          · exact he
        exact ih hmem
      · simp [hx]

theorem c8_lookupFieldDef (names0 : List String) (nm : String) (h : nm ∈ names0) :
    lookupFieldDef (c8Schema names0) "T" nm =
      some { name := nm, type := .named "String", description := none } := by
  have hlt : lookupType (c8Schema names0) "T" = some (.object "T" (c8TypeFields names0)) := rfl
  unfold lookupFieldDef
  rw [hlt]
  exact c8_fields_find names0 nm h

/-- Visiting one plain `String`-typed leaf field writes its node into the
(object-faced) frame's properties and leaves everything else alone. -/
theorem c8_process_field (c : ConvCtx) (frags : List (String × Node)) (tn nm : String)
    (frame : Node) (p : List (String × Node)) (cache : ScalarConfig)
    (hlf : lookupFieldDef c.schema tn nm =
      some { name := nm, type := .named "String", description := none })
    (hty : isOfTypeOrContains frame.type "object" = true)
    (hpr : frame.properties = some p) :
    processSelection c frags tn (.field none nm .nil) frame cache =
      .ok (frame.setProperties (some (insertAssoc p nm stringFieldNode)), cache) := by
  simp only [processSelection, hlf, hty, hpr]
  rfl

/-- Walking a list of plain `String` leaf fields (each of them declared on
`T`) over any object-faced frame appends/overwrites their properties one by
one — the same fold whether the frame is a fragment's node or a field's. -/
theorem c8_eval (names0 : List String) :
    ∀ (names : List String), (∀ nm, nm ∈ names → nm ∈ names0) →
    ∀ (frame : Node) (p : List (String × Node)) (frags : List (String × Node))
      (cache : ScalarConfig),
      isOfTypeOrContains frame.type "object" = true →
      frame.properties = some p →
      processSelectionList ⟨c8Schema names0, defaultOnUnknownScalar⟩ frags "T"
          (c8Fields names) frame cache =
        .ok (frame.setProperties (some (c8Fold p names)), cache) := by
  intro names
  induction names with
  | nil =>
    intro hmem frame p frags cache hty hpr
    simp only [c8Fields, c8Fold, processSelectionList]
    rw [Node.setProperties_own frame (some p) hpr]
  | cons nm rest ih =>
    intro hmem frame p frags cache hty hpr
    have hnm : nm ∈ names0 := hmem nm (List.mem_cons_self _ _)
    have hstep := c8_process_field ⟨c8Schema names0, defaultOnUnknownScalar⟩ frags "T" nm
      frame p cache (c8_lookupFieldDef names0 nm hnm) hty hpr
    have hty2 : isOfTypeOrContains
        (frame.setProperties (some (insertAssoc p nm stringFieldNode))).type "object"
        = true := by
      rw [Node.type_setProperties]
      exact hty
    have ihh := ih (fun x hx => hmem x (List.mem_cons_of_mem _ hx))
      (frame.setProperties (some (insertAssoc p nm stringFieldNode)))
      (insertAssoc p nm stringFieldNode) frags cache hty2
      (Node.properties_setProperties _ _)
    calc processSelectionList ⟨c8Schema names0, defaultOnUnknownScalar⟩ frags "T"
          (c8Fields (nm :: rest)) frame cache
        = Except.bind (processSelection ⟨c8Schema names0, defaultOnUnknownScalar⟩ frags "T"
              (.field none nm .nil) frame cache)
            (fun r => processSelectionList ⟨c8Schema names0, defaultOnUnknownScalar⟩ frags "T"
              (c8Fields rest) r.1 r.2) := rfl
      _ = processSelectionList ⟨c8Schema names0, defaultOnUnknownScalar⟩ frags "T"
            (c8Fields rest) (frame.setProperties (some (insertAssoc p nm stringFieldNode)))
            cache := by
              rw [hstep]
              rfl
      _ = .ok ((frame.setProperties (some (insertAssoc p nm stringFieldNode))).setProperties
            (some (c8Fold (insertAssoc p nm stringFieldNode) rest)), cache) := ihh
      _ = .ok (frame.setProperties (some (c8Fold p (nm :: rest))), cache) := by
            rw [Node.setProperties_setProperties]
            rfl

/-- The spread run: fragment first, then `query Q { t { ...F } }`. -/
theorem c8_spread_run (names : List String) :
    toOpenAPI (c8Schema names) defaultOnUnknownScalar (c8DocSpread names) [] =
      .ok (.openApiSchema (c8ExpectedDoc names), []) := by
  have hfrag := c8_eval names names (fun x hx => hx) c8InitFragNode [] [] [] rfl rfl
  have step1 : toOpenAPI (c8Schema names) defaultOnUnknownScalar (c8DocSpread names) [] =
      Except.bind (Except.bind
        (processSelectionList ⟨c8Schema names, defaultOnUnknownScalar⟩ [] "T"
          (c8Fields names) c8InitFragNode [])
        (c8FragCont names)) c8Postlude := rfl
  rw [step1, hfrag]
  rfl

/-- The inline run: `query Q { t { <names> } }`. -/
theorem c8_inline_run (names : List String) :
    toOpenAPI (c8Schema names) defaultOnUnknownScalar (c8DocInline names) [] =
      .ok (.openApiSchema (c8ExpectedDoc names), []) := by
  have hfield := c8_eval names names (fun x hx => hx) c8ObjNode [] [] [] rfl rfl
  have step1 : toOpenAPI (c8Schema names) defaultOnUnknownScalar (c8DocInline names) [] =
      Except.bind (Except.bind (Except.bind (Except.bind
        (processSelectionList ⟨c8Schema names, defaultOnUnknownScalar⟩ [] "T"
          (c8Fields names) c8ObjNode [])
        c8WriteCont) (c8ListCont names)) (c8OpCont names)) c8Postlude := rfl
  rw [step1, hfield]
  rfl

/-- C8 (amended): a named fragment spread produces output structurally
identical to inlining the fragment's selection set **when the spread is the
sole selection of its set and its fragment is spread only once** — here for
any list of leaf fields on `T`; in general the spread handler *replaces* the
container's accumulated properties with (a shared reference to) the
fragment's, so a spread with preceding sibling fields, or a fragment spread
twice, yields a different shape than inlining (see the counterexample). -/
theorem c8_fragment_inline (names : List String) :
    toOpenAPI (c8Schema names) defaultOnUnknownScalar (c8DocSpread names) [] =
      toOpenAPI (c8Schema names) defaultOnUnknownScalar (c8DocInline names) [] :=
  (c8_spread_run names).trans (c8_inline_run names).symm

/-- C8 counterexample: for `fragment F on T { a }` and the query
`query Q { t { b ...F } }` — a sibling field written before the spread — the
spread *replaces* the accumulated properties, so the output (`t` has
properties `[a]`) differs from the inlined query `query Q { t { b a } }`
(properties `[b, a]`). -/
theorem c8_counterexample :
    toOpenAPI c8sSchema defaultOnUnknownScalar c8sDocSpread [] ≠
      toOpenAPI c8sSchema defaultOnUnknownScalar c8sDocInline [] ∧
    c8Probe (toOpenAPI c8sSchema defaultOnUnknownScalar c8sDocSpread []) = ["a"] ∧
    c8Probe (toOpenAPI c8sSchema defaultOnUnknownScalar c8sDocInline []) = ["b", "a"] := by
  refine ⟨?_, rfl, rfl⟩
  intro h
  exact absurd (congrArg c8Probe h) (by decide)

end GtoO
